import Mathlib

/-!
Verification of the token lifecycle and authenticated-request pipeline of an
Etsy shop-management tool, shallowly embedded from the Python sources:

- `config/settings.py`   (ConfigManager: encrypted credential store)
- `auth/token_manager.py` (TokenManager: refresh policy and token access)
- `auth/oauth_handler.py` (EtsyOAuthHandler: PKCE generation, redirect parsing)
- `api/client.py`         (EtsyAPIClient: form encoding, 429 retry pipeline)

Modelling conventions:
- The persisted JSON credential document is a finite map from string keys to
  ciphertext strings, embedded as `String → Option String` (a key absent from
  the document maps to `none`).  Fernet encryption/decryption are library
  calls, embedded as explicit function parameters `enc : String → String`
  and `dec : String → Option String` (`none` = decryption failure).
- Unix timestamps are embedded as integers; Python `time.time()` is passed
  explicitly as a `now` argument.
- Network I/O (`requests.post` for token refresh, `session.request` in the
  client) is embedded as explicit response parameters: a scripted transcript
  of HTTP responses for the request pipeline, and a `String → Except String
  TokenData` function for the refresh endpoint.
- SHA-256 is a library call (`hashlib.sha256`), embedded as an explicit
  function parameter `sha256 : List Nat → List Nat` over byte lists.
-/

namespace ConfigManager

/-- The persisted credential document `config.json`: a flat map from string
keys to individually encrypted string values.  A key absent from the
document maps to `none`. -/
abbrev Doc := String → Option String

/-- A document with no credentials stored (missing or empty config file). -/
def emptyDoc : Doc := fun _ => none

/-- Overwrite one key of the document (Python `dict` update of one entry). -/
def docInsert (doc : Doc) (key val : String) : Doc :=
  fun k => if k = key then some val else doc k

/-- Embeds `ConfigManager.save_credentials`: each truthy (nonempty) value in
`data` is encrypted and merged into the existing document; falsy (empty)
values are skipped by the `if value:` guard. -/
def save_credentials (enc : String → String) (data : List (String × String)) (doc : Doc) : Doc :=
  data.foldl (fun d kv => if kv.2 ≠ "" then docInsert d kv.1 (enc kv.2) else d) doc

/-- Embeds `ConfigManager.load_credentials`: decrypt every entry; an entry
whose decryption fails is logged and omitted from the result. -/
def load_credentials (dec : String → Option String) (doc : Doc) : Doc :=
  fun k => (doc k).bind dec

/-- Embeds `ConfigManager.get` with the default `None`: load, decrypt, and
return the requested key. -/
def get (dec : String → Option String) (doc : Doc) (key : String) : Option String :=
  load_credentials dec doc key

/-- Embeds `ConfigManager.set`: `save_credentials({key: value})`. -/
def set (enc : String → String) (key value : String) (doc : Doc) : Doc :=
  save_credentials enc [(key, value)] doc

/-- `save_credentials` applied to a whole decrypted credential map over a
fresh (unlinked) document, as done by `ConfigManager.delete` when it
re-saves: every truthy value is re-encrypted, falsy values are skipped. -/
def resave_all (enc : String → String) (creds : Doc) : Doc :=
  fun k => match creds k with
  | some v => if v ≠ "" then some (enc v) else none
  | none => none

/-- Embeds `ConfigManager.delete`: load and decrypt the credentials; if the
key is present in the decrypted map, delete the config file and re-save the
remaining credentials; otherwise a no-op. -/
def delete (enc : String → String) (dec : String → Option String) (key : String) (doc : Doc) : Doc :=
  let creds := load_credentials dec doc
  if (creds key).isSome then
    resave_all enc (fun k => if k = key then none else creds k)
  else doc

/-- A credential document is well-encrypted when every stored ciphertext is
the encryption of some nonempty plaintext — the invariant maintained by
`save_credentials`, which only ever stores `enc value` for truthy values. -/
def WellEncrypted (enc : String → String) (doc : Doc) : Prop :=
  ∀ k c, doc k = some c → ∃ s, s ≠ "" ∧ c = enc s

end ConfigManager

/-- The token response body from the OAuth server: `access_token` is a
required key (`token_data['access_token']`), `refresh_token` and
`expires_in` are read with `.get` defaults. -/
structure TokenData where
  access_token : String
  refresh_token : Option String
  expires_in : Option Int

namespace ConfigManager

/-- Embeds `ConfigManager.save_tokens`: computes the absolute expiry
`now + expires_in` (default 3600) and stores `access_token`,
`refresh_token` (default `''`, hence skipped when absent) and
`token_expires` via `save_credentials`. -/
def save_tokens (enc : String → String) (now : Int) (td : TokenData) (doc : Doc) : Doc :=
  save_credentials enc
    [("access_token", td.access_token),
     ("refresh_token", td.refresh_token.getD ""),
     ("token_expires", toString (now + td.expires_in.getD 3600))]
    doc

end ConfigManager

namespace TokenManager

/-- Decimal digit value of a character, `none` on a non-digit. -/
def digitVal (c : Char) : Option Nat :=
  if c.isDigit then some (c.toNat - 48) else none

/-- Parse a nonempty all-digit character list as a natural number. -/
def digitsToNat : List Char → Option Nat
  | [] => Option.none
  | cs => cs.foldl
      (fun acc c => match acc, digitVal c with
        | some n, some d => some (n * 10 + d)
        | _, _ => Option.none)
      (some 0)

/-- Numeric parse of a stored timestamp string, modelling Python `float()`
on the integer-valued timestamp strings this program stores (an optional
leading minus sign followed by digits); `none` models `ValueError`. -/
def parseTimestamp (s : String) : Option Int :=
  match s.data with
  | '-' :: rest => (digitsToNat rest).map (fun n => -(n : Int))
  | l => (digitsToNat l).map (fun n => (n : Int))

/-- Embeds `TokenManager.get_token_expiry`: `float(tokens.get('token_expires', 0))`
with `ValueError`/`TypeError` mapped to `0`.  Timestamps are embedded as
integers. -/
def get_token_expiry (dec : String → Option String) (doc : ConfigManager.Doc) : Int :=
  match ConfigManager.get dec doc "token_expires" with
  | none => 0
  | some s => (parseTimestamp s).getD 0

/-- Embeds `TokenManager.needs_refresh`: false when the stored expiry is
unset (`expiry == 0`), otherwise `time.time() > expiry - 300`. -/
def needs_refresh (now : Int) (dec : String → Option String) (doc : ConfigManager.Doc) : Bool :=
  let expiry := get_token_expiry dec doc
  if expiry = 0 then false else decide (now > expiry - 300)

/-- Embeds `TokenManager.get_refresh_token`. -/
def get_refresh_token (dec : String → Option String) (doc : ConfigManager.Doc) : Option String :=
  ConfigManager.get dec doc "refresh_token"

/-- Embeds `TokenManager.refresh`: raises when no OAuth handler is set or no
refresh token is available (Python truthiness: `None` or `''`); otherwise
calls the handler's network refresh (`refreshResp`) and saves the resulting
token record, propagating any failure.  Returns the updated document. -/
def refresh (enc : String → String) (dec : String → Option String) (handlerBound : Bool)
    (refreshResp : String → Except String TokenData) (now : Int) (doc : ConfigManager.Doc) :
    Except String ConfigManager.Doc :=
  if handlerBound = false then Except.error "OAuth handler not set"
  else match get_refresh_token dec doc with
  | none => Except.error "No refresh token available"
  | some rt =>
    if rt = "" then Except.error "No refresh token available"
    else match refreshResp rt with
    | Except.error e => Except.error e
    | Except.ok td => Except.ok (ConfigManager.save_tokens enc now td doc)

/-- Embeds `TokenManager.get_access_token`: if the token needs refresh and a
handler is bound, refresh synchronously (propagating failure); if it needs
refresh but no handler is bound, only a warning is logged and execution
continues.  Returns the (possibly updated) document and the stored access
token. -/
def get_access_token (enc : String → String) (dec : String → Option String) (handlerBound : Bool)
    (refreshResp : String → Except String TokenData) (now : Int) (doc : ConfigManager.Doc) :
    Except String (ConfigManager.Doc × Option String) :=
  if needs_refresh now dec doc then
    if handlerBound then
      match refresh enc dec handlerBound refreshResp now doc with
      | Except.error e => Except.error e
      | Except.ok doc2 => Except.ok (doc2, ConfigManager.get dec doc2 "access_token")
    else Except.ok (doc, ConfigManager.get dec doc "access_token")
  else Except.ok (doc, ConfigManager.get dec doc "access_token")

/-- Embeds `TokenManager.clear_tokens`: delete the access token, refresh
token and expiry keys, in that order. -/
def clear_tokens (enc : String → String) (dec : String → Option String)
    (doc : ConfigManager.Doc) : ConfigManager.Doc :=
  ConfigManager.delete enc dec "token_expires"
    (ConfigManager.delete enc dec "refresh_token"
      (ConfigManager.delete enc dec "access_token" doc))

end TokenManager

namespace EtsyOAuthHandler

/-- The URL-safe base64 alphabet used by Python `base64.urlsafe_b64encode`. -/
def b64Alphabet : List Char :=
  "ABCDEFGHIJKLMNOPQRSTUVWXYZabcdefghijklmnopqrstuvwxyz0123456789-_".toList

/-- Character for one 6-bit group. -/
def b64Char (n : Nat) : Char :=
  match b64Alphabet.get? n with
  | some c => c
  | none => 'A'

/-- URL-safe base64 encoding of a byte list, with `=` padding, as produced
by `base64.urlsafe_b64encode`. -/
def b64urlEncode : List Nat → List Char
  | [] => []
  | [a] => [b64Char (a / 4), b64Char (a % 4 * 16), '=', '=']
  | [a, b] => [b64Char (a / 4), b64Char (a % 4 * 16 + b / 16), b64Char (b % 16 * 4), '=']
  | a :: b :: c :: rest =>
    b64Char (a / 4) :: b64Char (a % 4 * 16 + b / 16) ::
      b64Char (b % 16 * 4 + c / 64) :: b64Char (c % 64) :: b64urlEncode rest

/-- Python `.rstrip('=')`: drop trailing padding characters. -/
def rstripPad (l : List Char) : List Char :=
  (l.reverse.dropWhile (fun c => c = '=')).reverse

/-- UTF-8 encoding of one character as a byte list (Python `str.encode('utf-8')`
per code point). -/
def utf8Char (c : Char) : List Nat :=
  let n := c.toNat
  if n < 128 then [n]
  else if n < 2048 then [192 + n / 64, 128 + n % 64]
  else if n < 65536 then [224 + n / 4096, 128 + n / 64 % 64, 128 + n % 64]
  else [240 + n / 262144, 128 + n / 4096 % 64, 128 + n / 64 % 64, 128 + n % 64]

/-- UTF-8 encoding of a string as a byte list. -/
def utf8Encode (s : String) : List Nat :=
  s.data.foldr (fun c acc => utf8Char c ++ acc) []

/-- A PKCE verifier/challenge pair. -/
structure PkcePair where
  verifier : String
  challenge : String

/-- Embeds `EtsyOAuthHandler.generate_pkce`: the verifier is the padding-
stripped url-safe base64 of 96 random bytes (`rnd`), and the challenge is
the padding-stripped url-safe base64 of the SHA-256 digest of the
verifier's UTF-8 bytes.  The random source and SHA-256 are explicit
parameters. -/
def generate_pkce (sha256 : List Nat → List Nat) (rnd : List Nat) : PkcePair :=
  let verifier := String.mk (rstripPad (b64urlEncode rnd))
  let challenge := String.mk (rstripPad (b64urlEncode (sha256 (utf8Encode verifier))))
  ⟨verifier, challenge⟩

/-- Modelled from the spec's words: `base64url(SHA-256(verifier))` with `=`
padding stripped, applied to an already-hashed byte list.  Used as the
spec-side formula that `generate_pkce`'s challenge is compared against. -/
def base64url_nopad (bs : List Nat) : String :=
  String.mk (rstripPad (b64urlEncode bs))

/-- Multi-dict lookup over parsed query parameters: Python
`parse_qs(query)[key]` is the list of all values bound to `key`. -/
def getAll (params : List (String × String)) (key : String) : List String :=
  (params.filter (fun p => p.1 = key)).map (fun p => p.2)

/-- Embeds `EtsyOAuthHandler.extract_code_from_url` over the parsed query
parameters of the redirect URL: raise on a server `error` parameter, raise
when `code` is absent, and raise on a `state` mismatch when a `state`
parameter is present and a truthy CSRF state is stored.  The function is
pure: no network call is made. -/
def extract_code_from_url (storedState : Option String) (params : List (String × String)) :
    Except String String :=
  match getAll params "error" with
  | e :: _ =>
    Except.error ("OAuth error: " ++ e ++ " - " ++ (getAll params "error_description").headD "Unknown error")
  | [] =>
    match getAll params "code" with
    | [] => Except.error "No authorization code found in URL"
    | code :: _ =>
      match getAll params "state", storedState with
      | st :: _, some s =>
        if s ≠ "" then
          if st ≠ s then Except.error "State parameter mismatch - possible CSRF attack"
          else Except.ok code
        else Except.ok code
      | _, _ => Except.ok code

end EtsyOAuthHandler

namespace EtsyAPIClient

/-- A scalar value appearing in a form-data dictionary (string or integer);
`scalarStr` is Python `str()` on it. -/
inductive Scalar where
  | s (v : String)
  | i (n : Int)

/-- Python `str()` of a scalar. -/
def scalarStr : Scalar → String
  | Scalar.s v => v
  | Scalar.i n => toString n

/-- A value of a form-data dictionary entry: `None`, a scalar, or a list of
scalars. -/
inductive FormVal where
  | none
  | scalar (v : Scalar)
  | list (items : List Scalar)

/-- Uppercase hexadecimal digit. -/
def hexDigit (n : Nat) : Char :=
  match "0123456789ABCDEF".toList.get? n with
  | some c => c
  | Option.none => '0'

/-- Percent-encoding of one byte. -/
def percentByte (b : Nat) : List Char :=
  ['%', hexDigit (b / 16), hexDigit (b % 16)]

/-- Embeds `urllib.parse.quote(·, safe='')` for one character: ASCII
letters, digits and `_.-~` are kept, every other character has each of its
UTF-8 bytes percent-encoded. -/
def quoteChar (c : Char) : List Char :=
  if c.isAlphanum ∨ c = '_' ∨ c = '.' ∨ c = '-' ∨ c = '~' then [c]
  else (EtsyOAuthHandler.utf8Char c).foldr (fun b acc => percentByte b ++ acc) []

/-- Embeds `urllib.parse.quote(·, safe='')` on a string. -/
def quote (s : String) : String :=
  String.mk (s.data.foldr (fun c acc => quoteChar c ++ acc) [])

/-- The individual `key=value` / `key[]=value` parts accumulated by
`EtsyAPIClient._encode_form_data`'s loop, in input order: `None` values are
skipped, list values expand to one `key[]=` part per element, scalars to a
single `key=` part; values (not keys) are percent-encoded. -/
def formParts : List (String × FormVal) → List String
  | [] => []
  | (k, v) :: rest =>
    (match v with
     | FormVal.none => []
     | FormVal.list items => items.map (fun it => k ++ "[]=" ++ quote (scalarStr it))
     | FormVal.scalar sv => [k ++ "=" ++ quote (scalarStr sv)]) ++ formParts rest

/-- Embeds `EtsyAPIClient._encode_form_data`: `'&'.join(parts)`. -/
def _encode_form_data (data : List (String × FormVal)) : String :=
  String.intercalate "&" (formParts data)

/-- One scripted HTTP response for the request pipeline: status code,
optional `Retry-After` header, the parsed JSON error fields
`(error, error_description)` when the body parses as JSON (with the
`.get` defaults `'Unknown error'` / `''` already applied), the raw
response text, and the parsed JSON body for success responses (`none` =
empty content). -/
structure HttpResponse where
  status : Nat
  retryAfter : Option Nat
  parsed : Option (String × String)
  text : String
  body : Option String

/-- Substring test, Python `sub in s`. -/
def containsSub (s pat : String) : Bool :=
  decide ((s.splitOn pat).length > 1)

/-- Embeds `EtsyAPIClient._handle_error_response`: build the message from
the JSON `error`/`error_description` fields, falling back to
`HTTP <status>: <text>`, and prefix it by the status-specific label. -/
def _handle_error_response (r : HttpResponse) : String :=
  let message := match r.parsed with
    | some (e, d) => if d ≠ "" then e ++ ": " ++ d else e
    | none => "HTTP " ++ toString r.status ++ ": " ++ r.text
  if r.status = 400 then "Bad Request - " ++ message
  else if r.status = 401 then "Unauthorized - " ++ message
  else if r.status = 403 then
    if containsSub message "insufficient_scope" then
      "Insufficient permissions - " ++ message ++ ". Please reconnect with required scopes."
    else "Forbidden - " ++ message
  else if r.status = 404 then "Not Found - " ++ message
  else "API Error - " ++ message

/-- The observable trace of one `EtsyAPIClient.request` call: the sequence
of underlying HTTP calls issued (each tagged with the request description,
which the recursive 429 retry passes through unchanged), the total seconds
slept on `Retry-After`, and the outcome (parsed body or raised error). -/
structure RequestTrace where
  calls : List String
  slept : Nat
  outcome : Except String (Option String)

/-- Embeds the response-handling loop of `EtsyAPIClient.request` against a
scripted transcript of responses: a 429 reads `Retry-After` (default 60),
sleeps that long, and recursively retries the same request with no retry
limit; a status `≥ 400` raises via `_handle_error_response`; otherwise the
parsed body is returned (`None` on empty content).  An exhausted transcript
stands for a transport failure, which is re-raised unchanged. -/
def request (req : String) : List HttpResponse → RequestTrace
  | [] => ⟨[req], 0, Except.error "Transport error"⟩
  | r :: rest =>
    if r.status = 429 then
      let t := request req rest
      ⟨req :: t.calls, r.retryAfter.getD 60 + t.slept, t.outcome⟩
    else if 400 ≤ r.status then
      ⟨[req], 0, Except.error (_handle_error_response r)⟩
    else
      ⟨[req], 0, Except.ok r.body⟩

end EtsyAPIClient

/-- Concrete document: only `token_expires` set, to `1000`. -/
def boundaryDoc : ConfigManager.Doc :=
  fun k => if k = "token_expires" then some "1000" else none

/-- Concrete document: a full stale token record expiring at `1000`. -/
def staleDoc : ConfigManager.Doc := fun k =>
  if k = "access_token" then some "AT"
  else if k = "refresh_token" then some "RT"
  else if k = "token_expires" then some "1000" else none

/-- Concrete document: an expiring access token with no refresh token. -/
def noRefreshDoc : ConfigManager.Doc := fun k =>
  if k = "access_token" then some "AT"
  else if k = "token_expires" then some "1000" else none

/-- Concrete document: only a stored refresh token. -/
def refreshOnlyDoc : ConfigManager.Doc :=
  fun k => if k = "refresh_token" then some "RT" else none

/-- Concrete document: an API key plus a full token record. -/
def fullDoc : ConfigManager.Doc := fun k =>
  if k = "api_key" then some "KEY"
  else if k = "access_token" then some "AT"
  else if k = "refresh_token" then some "RT"
  else if k = "token_expires" then some "1000" else none

/-- A concrete token-endpoint response that omits the `refresh_token`. -/
def refreshTd : TokenData := ⟨"AT2", none, some 3600⟩

/-- Concrete parsed redirect query: a code plus a mismatching state. -/
def mismatchParams : List (String × String) := [("code", "abc"), ("state", "bad")]

/-- Inserting at one key leaves every other key of the document unchanged. -/
theorem docInsert_ne (doc : ConfigManager.Doc) (key val k : String) (h : k ≠ key) :
    ConfigManager.docInsert doc key val k = doc k := by
  simp [ConfigManager.docInsert, h]

/-- `ConfigManager.delete` removes the requested key from the readable
credentials, leaves every other key's decrypted value unchanged, and
preserves the well-encrypted invariant (assuming decryption inverts
encryption). -/
theorem delete_spec (enc : String → String) (dec : String → Option String) (key : String)
    (doc : ConfigManager.Doc) (hdec : ∀ s, dec (enc s) = some s)
    (hw : ConfigManager.WellEncrypted enc doc) :
    ConfigManager.get dec (ConfigManager.delete enc dec key doc) key = none
    ∧ (∀ k2, k2 ≠ key → ConfigManager.get dec (ConfigManager.delete enc dec key doc) k2
        = ConfigManager.get dec doc k2)
    ∧ ConfigManager.WellEncrypted enc (ConfigManager.delete enc dec key doc) := by
  by_cases hk : (ConfigManager.load_credentials dec doc key).isSome
  · have hdel : ConfigManager.delete enc dec key doc
        = ConfigManager.resave_all enc
            (fun k => if k = key then none else ConfigManager.load_credentials dec doc k) := by
      simp [ConfigManager.delete, hk]
    refine ⟨?_, ?_, ?_⟩
    · rw [hdel]
      simp [ConfigManager.get, ConfigManager.load_credentials, ConfigManager.resave_all]
    · intro k2 hne
      rw [hdel]
      cases hd : doc k2 with
      | none =>
        simp [ConfigManager.get, ConfigManager.load_credentials, ConfigManager.resave_all, hne, hd]
      | some c =>
        obtain ⟨s, hs, rfl⟩ := hw k2 c hd
        simp [ConfigManager.get, ConfigManager.load_credentials, ConfigManager.resave_all,
          hne, hd, hdec s, hs]
    · intro k c hc
      rw [hdel] at hc
      unfold ConfigManager.resave_all at hc
      by_cases hkk : k = key
      · simp [hkk] at hc
      · simp only [if_neg hkk] at hc
        cases hl : ConfigManager.load_credentials dec doc k with
        | none => rw [hl] at hc; simp at hc
        | some v =>
          rw [hl] at hc
          by_cases hv : v = ""
          · simp [hv] at hc
          · simp [hv] at hc
            exact ⟨v, hv, hc.symm⟩
  · have hnone : ConfigManager.load_credentials dec doc key = none := by
      cases h : ConfigManager.load_credentials dec doc key
      · rfl
      · rw [h] at hk; simp at hk
    have hdel : ConfigManager.delete enc dec key doc = doc := by
      simp [ConfigManager.delete, hk]
    refine ⟨?_, ?_, ?_⟩
    · rw [hdel]; exact hnone
    · intro k2 _; rw [hdel]
    · rw [hdel]; exact hw

/-- C1 counterexample: with the stored expiry set to `1000` and
`now = 700 = expires_at - 300` (the boundary the claim says yields true),
`needs_refresh` returns `false`, because the code's comparison
`time.time() > expiry - 300` is strict. -/
theorem needs_refresh_boundary_counterexample :
    TokenManager.get_token_expiry some boundaryDoc = 1000 ∧
    TokenManager.needs_refresh 700 some boundaryDoc = false := by
  constructor
  · rfl
  · rfl

/-- C1 (amended): `needs_refresh` is false when the stored expiry is unset,
and in general equals the strict comparison `now > expires_at - 300`
(conjoined with the expiry being set); in particular it is false, not true,
at the boundary `now = expires_at - 300`. -/
theorem needs_refresh_characterization (dec : String → Option String)
    (doc : ConfigManager.Doc) (now : Int) :
    (ConfigManager.get dec doc "token_expires" = none →
      TokenManager.needs_refresh now dec doc = false)
    ∧ TokenManager.needs_refresh now dec doc =
        (decide (¬ TokenManager.get_token_expiry dec doc = 0) &&
         decide (now > TokenManager.get_token_expiry dec doc - 300)) := by
  constructor
  · intro h
    simp [TokenManager.needs_refresh, TokenManager.get_token_expiry, h]
  · by_cases he : TokenManager.get_token_expiry dec doc = 0
    · simp [TokenManager.needs_refresh, he]
    · simp [TokenManager.needs_refresh, he]

/-- Witness for the C1 amended theorem at the never-authenticated store. -/
theorem needs_refresh_characterization_witness :
    ConfigManager.get some ConfigManager.emptyDoc "token_expires" = none ∧
    TokenManager.needs_refresh 0 some ConfigManager.emptyDoc = false :=
  ⟨rfl, (needs_refresh_characterization some ConfigManager.emptyDoc 0).1 rfl⟩

/-- C2 counterexample: the token needs refresh (`now = 800`, expiry `1000`)
and no OAuth handler is bound, yet `get_access_token` does not surface an
error: it logs a warning and returns the stored (stale) access token. -/
theorem get_access_token_no_handler_counterexample :
    TokenManager.needs_refresh 800 some staleDoc = true ∧
    TokenManager.get_access_token id some false (fun _ => Except.error "net") 800 staleDoc
      = Except.ok (staleDoc, some "AT") := by
  constructor
  · rfl
  · rfl

/-- C2 (amended): when the token needs refresh and a handshake is bound but
no refresh token is available, `get_access_token` surfaces a fatal error
rather than returning a token; when no handshake is bound it only logs a
warning and returns the stored access token. -/
theorem get_access_token_fatal_error_amended (enc : String → String)
    (dec : String → Option String) (rp : String → Except String TokenData)
    (now : Int) (doc : ConfigManager.Doc)
    (hneed : TokenManager.needs_refresh now dec doc = true)
    (hno : ConfigManager.get dec doc "refresh_token" = none ∨
           ConfigManager.get dec doc "refresh_token" = some "") :
    TokenManager.get_access_token enc dec true rp now doc
      = Except.error "No refresh token available"
    ∧ TokenManager.get_access_token enc dec false rp now doc
      = Except.ok (doc, ConfigManager.get dec doc "access_token") := by
  constructor
  · rcases hno with h | h <;>
      simp [TokenManager.get_access_token, hneed, TokenManager.refresh,
        TokenManager.get_refresh_token, h]
  · simp [TokenManager.get_access_token, hneed]

/-- Witness for the C2 amended theorem: expiring token, no refresh token. -/
theorem get_access_token_fatal_error_amended_witness :
    TokenManager.needs_refresh 800 some noRefreshDoc = true ∧
    ConfigManager.get some noRefreshDoc "refresh_token" = none ∧
    (TokenManager.get_access_token id some true (fun _ => Except.error "net") 800 noRefreshDoc
        = Except.error "No refresh token available"
      ∧ TokenManager.get_access_token id some false (fun _ => Except.error "net") 800 noRefreshDoc
        = Except.ok (noRefreshDoc, ConfigManager.get some noRefreshDoc "access_token")) :=
  ⟨by decide, by decide,
    get_access_token_fatal_error_amended id some (fun _ => Except.error "net") 800 noRefreshDoc
      (by decide) (Or.inl (by decide))⟩

/-- C4 counterexample: writing the empty string via `set` stores nothing
(the `if value:` guard skips falsy values), so reading the key back yields
`none`, not the empty string — the round-trip fails for `""`. -/
theorem credential_roundtrip_empty_counterexample :
    ConfigManager.get some (ConfigManager.set id "api_key" "" ConfigManager.emptyDoc) "api_key" = none ∧
    ConfigManager.get some (ConfigManager.set id "api_key" "" ConfigManager.emptyDoc) "api_key" ≠ some "" := by
  constructor
  · rfl
  · decide

/-- C4 (amended): for every nonempty value, writing via `set` and reading
via `get` returns the original plaintext exactly, provided decryption
inverts encryption; the empty string is excluded since `save_credentials`
skips falsy values. -/
theorem credential_roundtrip_nonempty (enc : String → String) (dec : String → Option String)
    (doc : ConfigManager.Doc) (k v : String)
    (hdec : dec (enc v) = some v) (hv : v ≠ "") :
    ConfigManager.get dec (ConfigManager.set enc k v doc) k = some v := by
  simp [ConfigManager.set, ConfigManager.save_credentials, ConfigManager.docInsert,
    ConfigManager.get, ConfigManager.load_credentials, hv, hdec]

/-- Witness for the C4 amended theorem with identity encryption. -/
theorem credential_roundtrip_nonempty_witness :
    (some (id "K") = some "K" ∧ "K" ≠ "") ∧
    ConfigManager.get some (ConfigManager.set id "api_key" "K" ConfigManager.emptyDoc) "api_key"
      = some "K" :=
  ⟨⟨rfl, by decide⟩,
    credential_roundtrip_nonempty id some ConfigManager.emptyDoc "api_key" "K" rfl (by decide)⟩

/-- C10: `set(key, "")` writes nothing — the persisted document is unchanged
(the falsy value is skipped by `save_credentials`'s `if value:` guard), and
every previously stored value remains readable unchanged. -/
theorem set_empty_value_noop (enc : String → String) (k : String) (doc : ConfigManager.Doc) :
    ConfigManager.set enc k "" doc = doc ∧
    ∀ (dec : String → Option String) (k2 : String),
      ConfigManager.get dec (ConfigManager.set enc k "" doc) k2
        = ConfigManager.get dec doc k2 := by
  constructor
  · rfl
  · intro dec k2
    rfl

/-- C8: when a successful refresh response omits `refresh_token`,
`save_tokens` stores `''` for it, which `save_credentials` skips, so the
prior persisted refresh token is retained byte-for-byte; `refresh` saves
exactly that record. -/
theorem refresh_retains_prior_refresh_token (enc : String → String)
    (dec : String → Option String) (rp : String → Except String TokenData)
    (now : Int) (doc : ConfigManager.Doc) (rt : String) (td : TokenData)
    (hrt : ConfigManager.get dec doc "refresh_token" = some rt) (hne : rt ≠ "")
    (hresp : rp rt = Except.ok td) (homit : td.refresh_token = none) :
    TokenManager.refresh enc dec true rp now doc
      = Except.ok (ConfigManager.save_tokens enc now td doc)
    ∧ ConfigManager.save_tokens enc now td doc "refresh_token" = doc "refresh_token"
    ∧ ConfigManager.get dec (ConfigManager.save_tokens enc now td doc) "refresh_token"
      = ConfigManager.get dec doc "refresh_token" := by
  have hdoc : ConfigManager.save_tokens enc now td doc "refresh_token" = doc "refresh_token" := by
    simp only [ConfigManager.save_tokens, ConfigManager.save_credentials, List.foldl, homit,
      Option.getD_none]
    simp only [ne_eq, not_true_eq_false, if_false]
    split
    · rw [docInsert_ne _ _ _ _ (by decide)]
      split
      · rw [docInsert_ne _ _ _ _ (by decide)]
      · rfl
    · split
      · rw [docInsert_ne _ _ _ _ (by decide)]
      · rfl
  refine ⟨?_, hdoc, ?_⟩
  · simp [TokenManager.refresh, TokenManager.get_refresh_token, hrt, hne, hresp]
  · simp [ConfigManager.get, ConfigManager.load_credentials, hdoc]

/-- Witness for C8 with identity encryption and a concrete omitted-token
response. -/
theorem refresh_retains_prior_refresh_token_witness :
    ConfigManager.get some refreshOnlyDoc "refresh_token" = some "RT" ∧ "RT" ≠ "" ∧
    (fun _ : String => (Except.ok refreshTd : Except String TokenData)) "RT" = Except.ok refreshTd ∧
    refreshTd.refresh_token = none ∧
    (TokenManager.refresh id some true (fun _ => Except.ok refreshTd) 0 refreshOnlyDoc
        = Except.ok (ConfigManager.save_tokens id 0 refreshTd refreshOnlyDoc)
      ∧ ConfigManager.save_tokens id 0 refreshTd refreshOnlyDoc "refresh_token"
        = refreshOnlyDoc "refresh_token"
      ∧ ConfigManager.get some (ConfigManager.save_tokens id 0 refreshTd refreshOnlyDoc) "refresh_token"
        = ConfigManager.get some refreshOnlyDoc "refresh_token") :=
  ⟨rfl, by decide, rfl, rfl,
    refresh_retains_prior_refresh_token id some (fun _ => Except.ok refreshTd) 0 refreshOnlyDoc
      "RT" refreshTd rfl (by decide) rfl rfl⟩

/-- C9: `clear_tokens` deletes the access token, refresh token and expiry
from the Credential Store, and leaves the `api_key` entry's value
unchanged (assuming decryption inverts encryption and the store only holds
ciphertexts of nonempty plaintexts, the invariant `save_credentials`
maintains). -/
theorem clear_tokens_frame (enc : String → String) (dec : String → Option String)
    (doc : ConfigManager.Doc) (hdec : ∀ s, dec (enc s) = some s)
    (hw : ConfigManager.WellEncrypted enc doc) :
    ConfigManager.get dec (TokenManager.clear_tokens enc dec doc) "access_token" = none
    ∧ ConfigManager.get dec (TokenManager.clear_tokens enc dec doc) "refresh_token" = none
    ∧ ConfigManager.get dec (TokenManager.clear_tokens enc dec doc) "token_expires" = none
    ∧ ConfigManager.get dec (TokenManager.clear_tokens enc dec doc) "api_key"
        = ConfigManager.get dec doc "api_key" := by
  have h1 := delete_spec enc dec "access_token" doc hdec hw
  have h2 := delete_spec enc dec "refresh_token"
    (ConfigManager.delete enc dec "access_token" doc) hdec h1.2.2
  have h3 := delete_spec enc dec "token_expires"
    (ConfigManager.delete enc dec "refresh_token"
      (ConfigManager.delete enc dec "access_token" doc)) hdec h2.2.2
  have e3 : TokenManager.clear_tokens enc dec doc
      = ConfigManager.delete enc dec "token_expires"
          (ConfigManager.delete enc dec "refresh_token"
            (ConfigManager.delete enc dec "access_token" doc)) := rfl
  refine ⟨?_, ?_, ?_, ?_⟩
  · rw [e3, h3.2.1 "access_token" (by decide), h2.2.1 "access_token" (by decide)]
    exact h1.1
  · rw [e3, h3.2.1 "refresh_token" (by decide)]
    exact h2.1
  · rw [e3]
    exact h3.1
  · rw [e3, h3.2.1 "api_key" (by decide), h2.2.1 "api_key" (by decide)]
    exact h1.2.1 "api_key" (by decide)

/-- Witness for C9 on a concrete store holding an API key and a full token
record, with identity encryption. -/
theorem clear_tokens_frame_witness :
    ConfigManager.get some (TokenManager.clear_tokens id some fullDoc) "access_token" = none
    ∧ ConfigManager.get some (TokenManager.clear_tokens id some fullDoc) "refresh_token" = none
    ∧ ConfigManager.get some (TokenManager.clear_tokens id some fullDoc) "token_expires" = none
    ∧ ConfigManager.get some (TokenManager.clear_tokens id some fullDoc) "api_key"
        = ConfigManager.get some fullDoc "api_key" :=
  clear_tokens_frame id some fullDoc (fun _ => rfl)
    (by
      intro k c h
      simp only [fullDoc] at h
      split at h
      · cases h; exact ⟨"KEY", by decide, rfl⟩
      · split at h
        · cases h; exact ⟨"AT", by decide, rfl⟩
        · split at h
          · cases h; exact ⟨"RT", by decide, rfl⟩
          · split at h
            · cases h; exact ⟨"1000", by decide, rfl⟩
            · exact Option.noConfusion h)

/-- The base64url alphabet never yields the padding character. -/
theorem b64Char_ne_pad (n : Nat) : EtsyOAuthHandler.b64Char n ≠ '=' := by
  unfold EtsyOAuthHandler.b64Char
  cases hg : EtsyOAuthHandler.b64Alphabet.get? n with
  | none => decide
  | some c =>
    have hc : c ∈ EtsyOAuthHandler.b64Alphabet := List.get?_mem hg
    have hne : ('=' : Char) ∉ EtsyOAuthHandler.b64Alphabet := by decide
    show c ≠ '='
    intro h
    rw [h] at hc
    exact hne hc

/-- Url-safe base64 of a byte list whose length is a multiple of three has
length `4 * (n / 3)` and contains no padding character. -/
theorem b64urlEncode_spec : ∀ (l : List Nat), l.length % 3 = 0 →
    (EtsyOAuthHandler.b64urlEncode l).length = 4 * (l.length / 3)
    ∧ ∀ ch ∈ EtsyOAuthHandler.b64urlEncode l, ch ≠ '='
  | [] => fun _ => by
      constructor
      · rfl
      · intro ch hch
        simp [EtsyOAuthHandler.b64urlEncode] at hch
  | [a] => fun h => by simp at h
  | [a, b] => fun h => by simp at h
  | a :: b :: c :: rest => fun h => by
      have h3 : rest.length % 3 = 0 := by
        simp [List.length_cons] at h
        omega
      obtain ⟨ihl, ihm⟩ := b64urlEncode_spec rest h3
      constructor
      · simp [EtsyOAuthHandler.b64urlEncode, ihl, List.length_cons]
        omega
      · intro ch hch
        simp [EtsyOAuthHandler.b64urlEncode] at hch
        rcases hch with h1 | h1 | h1 | h1 | h1
        · exact h1 ▸ b64Char_ne_pad _
        · exact h1 ▸ b64Char_ne_pad _
        · exact h1 ▸ b64Char_ne_pad _
        · exact h1 ▸ b64Char_ne_pad _
        · exact ihm ch h1

/-- Stripping padding from a padding-free character list is the identity. -/
theorem rstripPad_of_no_pad (l : List Char) (h : ∀ ch ∈ l, ch ≠ '=') :
    EtsyOAuthHandler.rstripPad l = l := by
  unfold EtsyOAuthHandler.rstripPad
  cases hr : l.reverse with
  | nil =>
    have hl : l = [] := by simpa using congrArg List.reverse hr
    simp [hl]
  | cons x xs =>
    have hx : x ∈ l := by
      have h1 : x ∈ l.reverse := by rw [hr]; exact List.mem_cons_self x xs
      simpa using h1
    have hstop : List.dropWhile (fun ch => ch = '=') (x :: xs) = x :: xs := by
      rw [List.dropWhile_cons]
      simp [h x hx]
    rw [hstop, ← hr, List.reverse_reverse]

/-- C3: for every pair returned by the PKCE generator (96 random bytes),
the challenge equals base64url(SHA-256(verifier)) with padding stripped,
and the encoded verifier length (here exactly 128) lies in [43, 128]. -/
theorem generate_pkce_challenge_and_length (sha256 : List Nat → List Nat) (rnd : List Nat)
    (h96 : rnd.length = 96) :
    (EtsyOAuthHandler.generate_pkce sha256 rnd).challenge
      = EtsyOAuthHandler.base64url_nopad
          (sha256 (EtsyOAuthHandler.utf8Encode
            (EtsyOAuthHandler.generate_pkce sha256 rnd).verifier))
    ∧ 43 ≤ (EtsyOAuthHandler.generate_pkce sha256 rnd).verifier.length
    ∧ (EtsyOAuthHandler.generate_pkce sha256 rnd).verifier.length ≤ 128 := by
  have h3 : rnd.length % 3 = 0 := by rw [h96]
  obtain ⟨hlen, hmem⟩ := b64urlEncode_spec rnd h3
  have hid : EtsyOAuthHandler.rstripPad (EtsyOAuthHandler.b64urlEncode rnd)
      = EtsyOAuthHandler.b64urlEncode rnd := rstripPad_of_no_pad _ hmem
  have hvlen : (EtsyOAuthHandler.generate_pkce sha256 rnd).verifier.length = 128 := by
    show (String.mk (EtsyOAuthHandler.rstripPad (EtsyOAuthHandler.b64urlEncode rnd))).length = 128
    rw [hid]
    show (EtsyOAuthHandler.b64urlEncode rnd).length = 128
    rw [hlen, h96]
  refine ⟨rfl, ?_, ?_⟩
  · rw [hvlen]
    decide
  · rw [hvlen]

/-- Witness for C3 at a concrete 96-byte random input and a stub hash. -/
theorem generate_pkce_challenge_and_length_witness :
    (List.replicate 96 0).length = 96 ∧
    ((EtsyOAuthHandler.generate_pkce (fun _ => ([] : List Nat)) (List.replicate 96 0)).challenge
        = EtsyOAuthHandler.base64url_nopad
            ((fun _ => ([] : List Nat)) (EtsyOAuthHandler.utf8Encode
              (EtsyOAuthHandler.generate_pkce (fun _ => ([] : List Nat)) (List.replicate 96 0)).verifier))
      ∧ 43 ≤ (EtsyOAuthHandler.generate_pkce (fun _ => ([] : List Nat)) (List.replicate 96 0)).verifier.length
      ∧ (EtsyOAuthHandler.generate_pkce (fun _ => ([] : List Nat)) (List.replicate 96 0)).verifier.length ≤ 128) :=
  ⟨by decide,
    generate_pkce_challenge_and_length (fun _ => ([] : List Nat)) (List.replicate 96 0) (by decide)⟩

/-- `formParts` distributes over appending of input dictionaries. -/
theorem formParts_append (xs ys : List (String × EtsyAPIClient.FormVal)) :
    EtsyAPIClient.formParts (xs ++ ys)
      = EtsyAPIClient.formParts xs ++ EtsyAPIClient.formParts ys := by
  induction xs with
  | nil => rfl
  | cons p rest ih =>
    cases p with
    | mk k v => simp [EtsyAPIClient.formParts, ih]

/-- C5: the form encoder omits `None`-valued fields entirely, expands every
list-valued field into one percent-encoded `key[]=value` part per element,
encodes scalars as single `key=value` parts, preserves insertion order of
keys then list order (parts distribute over dictionary concatenation), and
on `{a: "x", b: [1, 2]}` produces `a=x&b[]=1&b[]=2`. -/
theorem encode_form_data_spec :
    (∀ (pre post : List (String × EtsyAPIClient.FormVal)) (k : String),
      EtsyAPIClient._encode_form_data (pre ++ (k, EtsyAPIClient.FormVal.none) :: post)
        = EtsyAPIClient._encode_form_data (pre ++ post))
    ∧ (∀ xs ys, EtsyAPIClient.formParts (xs ++ ys)
        = EtsyAPIClient.formParts xs ++ EtsyAPIClient.formParts ys)
    ∧ (∀ (k : String) (items : List EtsyAPIClient.Scalar),
        EtsyAPIClient.formParts [(k, EtsyAPIClient.FormVal.list items)]
          = items.map (fun it => k ++ "[]=" ++ EtsyAPIClient.quote (EtsyAPIClient.scalarStr it)))
    ∧ (∀ (k : String) (v : EtsyAPIClient.Scalar),
        EtsyAPIClient.formParts [(k, EtsyAPIClient.FormVal.scalar v)]
          = [k ++ "=" ++ EtsyAPIClient.quote (EtsyAPIClient.scalarStr v)])
    ∧ EtsyAPIClient._encode_form_data
        [("a", EtsyAPIClient.FormVal.scalar (EtsyAPIClient.Scalar.s "x")),
         ("b", EtsyAPIClient.FormVal.list [EtsyAPIClient.Scalar.i 1, EtsyAPIClient.Scalar.i 2])]
        = "a=x&b[]=1&b[]=2" := by
  refine ⟨?_, formParts_append, ?_, ?_, ?_⟩
  · intro pre post k
    unfold EtsyAPIClient._encode_form_data
    rw [formParts_append pre ((k, EtsyAPIClient.FormVal.none) :: post),
      formParts_append pre post]
    congr 1
  · intro k items
    simp [EtsyAPIClient.formParts]
  · intro k v
    simp [EtsyAPIClient.formParts]
  · decide

/-- C6: on a 429 the pipeline sleeps for `Retry-After` seconds (60 when the
header is absent) and recursively retries the same request with no retry
limit: a [429 Retry-After 2, 200] transcript yields the 200 body after
exactly two underlying HTTP calls, and for every `n` a transcript of `n`
429s followed by a 200 still yields the 200 body after `n + 1` calls. -/
theorem request_429_retry_spec :
    EtsyAPIClient.request "REQ"
        [⟨429, some 2, none, "", none⟩, ⟨200, none, none, "", some "BODY"⟩]
      = ⟨["REQ", "REQ"], 2, Except.ok (some "BODY")⟩
    ∧ (∀ (req : String) (b : Option String) (ra : Nat),
        EtsyAPIClient.request req [⟨429, some ra, none, "", none⟩, ⟨200, none, none, "", b⟩]
          = ⟨[req, req], ra, Except.ok b⟩)
    ∧ (∀ (req : String),
        (EtsyAPIClient.request req [⟨429, none, none, "", none⟩]).slept = 60)
    ∧ (∀ (n : Nat) (req : String) (b : Option String),
        EtsyAPIClient.request req
            (List.replicate n ⟨429, some 1, none, "", none⟩ ++ [⟨200, none, none, "", b⟩])
          = ⟨List.replicate (n + 1) req, n, Except.ok b⟩) := by
  refine ⟨rfl, ?_, ?_, ?_⟩
  · intro req b ra
    simp [EtsyAPIClient.request]
  · intro req
    simp [EtsyAPIClient.request]
  · intro n req b
    induction n with
    | zero => simp [EtsyAPIClient.request]
    | succ m ih =>
      rw [List.replicate_succ, List.cons_append]
      simp only [EtsyAPIClient.request]
      rw [ih]
      simp [List.replicate_succ]
      omega

/-- C7: when a truthy CSRF state is stored and the redirect URL carries a
`state` parameter differing from it, `extract_code_from_url` raises a
validation failure (it is a pure function: no token-exchange network call
can be reached). -/
theorem extract_code_state_mismatch_raises (s st : String) (params : List (String × String))
    (hs : s ≠ "") (hst : (EtsyOAuthHandler.getAll params "state").head? = some st)
    (hne : st ≠ s) :
    ∃ msg, EtsyOAuthHandler.extract_code_from_url (some s) params = Except.error msg := by
  unfold EtsyOAuthHandler.extract_code_from_url
  cases hErr : EtsyOAuthHandler.getAll params "error" with
  | cons e te => exact ⟨_, rfl⟩
  | nil =>
    cases hCode : EtsyOAuthHandler.getAll params "code" with
    | nil => exact ⟨_, rfl⟩
    | cons c tc =>
      cases hState : EtsyOAuthHandler.getAll params "state" with
      | nil => rw [hState] at hst; simp at hst
      | cons st0 ts =>
        rw [hState] at hst
        simp at hst
        subst hst
        refine ⟨"State parameter mismatch - possible CSRF attack", ?_⟩
        show (if s ≠ "" then
                if st0 ≠ s then
                  Except.error "State parameter mismatch - possible CSRF attack"
                else Except.ok c
              else Except.ok c)
            = Except.error "State parameter mismatch - possible CSRF attack"
        rw [if_pos hs, if_pos hne]

/-- Witness for C7 at a concrete redirect query with a mismatching state. -/
theorem extract_code_state_mismatch_raises_witness :
    ("good" ≠ "" ∧ (EtsyOAuthHandler.getAll mismatchParams "state").head? = some "bad"
      ∧ "bad" ≠ "good") ∧
    ∃ msg, EtsyOAuthHandler.extract_code_from_url (some "good") mismatchParams
      = Except.error msg :=
  ⟨⟨by decide, by decide, by decide⟩,
    extract_code_state_mismatch_raises "good" "bad" mismatchParams
      (by decide) (by decide) (by decide)⟩
